import Mathlib

/-!
Verification of the spreadsheet data-entry application (`app_for_201407.py`).

The development shallowly embeds the program's logic:

* the retry executor `with_retry` is modelled as a fuel-indexed recursion over
  an attempt oracle (`Nat → Attempt α`), a random stream (`Nat → ℚ`, the
  successive values of `random.random()`), producing the raised/returned
  outcome, the number of invocations of the wrapped operation, and the ordered
  trace of warning/sleep events (each warning carries the attempt count and the
  computed delay that appear in the warning text);
* the remote spreadsheet is a list of rows of strings (1-based row/column
  indices at the interface, the empty string standing for an empty cell /
  a `None` cell value); `findCell`, `cellValue`, `rowValues`, `updateCell`,
  `appendRow` model the gspread operations used by the program;
* `update_sheet`, `confirm_yes`, `confirm_no` and `add_question` mirror the
  program's control flow.  Each remote call wrapped in `with_retry` is modelled
  as atomic: a `Bool` flag per call site says whether it ultimately succeeds or
  raises (after the retries, or with a non-transient error); a raising call has
  no effect on the sheet.  Streamlit messages are modelled by the `Msg` type
  (message texts elided); the `st.session_state` pending-overwrite record is
  modelled by `Option Pending`.
* `tokyoTimestamp` models `datetime.now(pytz.timezone("Asia/Tokyo"))
  .strftime("%Y-%m-%d %H:%M:%S")` as a function of the current Unix epoch
  second: a fixed UTC+9 offset (Asia/Tokyo has no DST), Gregorian calendar.
-/

namespace App

/-! ### Retry executor (`with_retry`, source lines 14-28) -/

/-- Classification of a raised Python exception: `gspread.exceptions.APIError`
(the transient remote-API error caught by the retry loop) versus any other
exception. -/
inductive PyErr : Type
  | apiError : PyErr
  | otherError : PyErr
deriving DecidableEq, Repr

/-- Outcome of one invocation of the wrapped zero-argument operation. -/
inductive Attempt (α : Type) : Type
  | ok (a : α) : Attempt α
  | raise (e : PyErr) : Attempt α
deriving DecidableEq, Repr

/-- Observable side effects of the retry loop, in order: `st.warning` (carrying
the 1-based attempt count and the computed delay shown in the message) and
`time.sleep` (carrying its duration). -/
inductive RetryEvent : Type
  | warn (attemptNum : Nat) (delay : ℚ) : RetryEvent
  | sleep (delay : ℚ) : RetryEvent
deriving DecidableEq, Repr

/-- Result of running the retry loop: the returned value (`Except.ok (some a)`),
the re-raised exception (`Except.error e`), or fall-through of the `for` loop
when `max_retries = 0` (`Except.ok none`, Python returns `None`); the number of
invocations of the operation; and the emitted warning/sleep trace. -/
structure RetryResult (α : Type) : Type where
  result : Except PyErr (Option α)
  calls : Nat
  events : List RetryEvent
deriving Repr

/-- The body of `with_retry`'s `for attempt in range(max_retries)` loop,
structurally recursive on the number of remaining iterations.  `f attempt` is
the outcome of calling `func()` on the given (0-based) iteration, `rand
attempt` the value of `random.random()` drawn there. -/
def withRetryGo (f : Nat → Attempt α) (rand : Nat → ℚ) (maxRetries : Nat)
    (delayBase : ℚ) : Nat → Nat → RetryResult α
  | 0, _ => ⟨.ok none, 0, []⟩
  | remaining + 1, attempt =>
    match f attempt with
    | .ok a => ⟨.ok (some a), 1, []⟩
    | .raise .otherError => ⟨.error .otherError, 1, []⟩
    | .raise .apiError =>
      if attempt = maxRetries - 1 then
        ⟨.error .apiError, 1, []⟩
      else
        let delay := delayBase * (1 + (attempt : ℚ)) * (1/2 + rand attempt)
        let rest := withRetryGo f rand maxRetries delayBase remaining (attempt + 1)
        ⟨rest.result, rest.calls + 1,
          .warn (attempt + 1) delay :: .sleep delay :: rest.events⟩

/-- `with_retry(func, max_retries, delay_base)` (source lines 14-28). -/
def with_retry (f : Nat → Attempt α) (rand : Nat → ℚ) (maxRetries : Nat)
    (delayBase : ℚ) : RetryResult α :=
  withRetryGo f rand maxRetries delayBase maxRetries 0

/-! ### The spreadsheet model -/

/-- A worksheet: a list of rows of cell values, row-major.  The externally
visible row/column indices are 1-based; the empty string models an empty cell
(gspread returns `None`, which is falsy exactly like `''`). -/
abbrev Sheet := List (List String)

/-- Position (1-based) of the first cell equal to `v` in one row. -/
def findInRow (v : String) : List String → Option Nat
  | [] => none
  | x :: xs => if x = v then some 1 else (findInRow v xs).map (· + 1)

/-- `sheet.find(v)`: the first matching cell in row-major order, as a 1-based
`(row, column)` pair; `none` when the value occurs nowhere. -/
def findCell (v : String) : Sheet → Option (Nat × Nat)
  | [] => none
  | r :: rs =>
    match findInRow v r with
    | some j => some (1, j)
    | none => (findCell v rs).map (fun p => (p.1 + 1, p.2))

/-- `sheet.cell(row, col).value`, with `None` rendered as `""`. -/
def cellValue (s : Sheet) (row col : Nat) : String :=
  if row = 0 || col = 0 then "" else (s.getD (row - 1) []).getD (col - 1) ""

/-- `sheet.row_values(row)`. -/
def rowValues (s : Sheet) (row : Nat) : List String :=
  s.getD (row - 1) []

/-- `sheet.append_row(r)`: the new row is placed after the last data row. -/
def appendRow (s : Sheet) (r : List String) : Sheet :=
  s ++ [r]

/-- Write `v` into position `i` (0-based) of a row, padding the row with empty
cells when it is shorter than `i + 1` (a spreadsheet row conceptually extends
with empty cells to the grid width). -/
def setAt (l : List String) (i : Nat) (v : String) : List String :=
  (l ++ List.replicate (i + 1 - l.length) "").set i v

/-- `sheet.update_cell(row, col, v)` (1-based indices). -/
def updateCell (s : Sheet) (row col : Nat) (v : String) : Sheet :=
  if row = 0 || col = 0 then s
  else if row ≤ s.length then
    s.set (row - 1) (setAt (s.getD (row - 1) []) (col - 1) v)
  else s

/-! ### The update flow (`update_sheet`, confirm panel, `add_question`) -/

/-- The pending-overwrite record held in `st.session_state` while
`confirm_overwrite` is true: target row and column, the new answer, and the
existing answer shown to the user. -/
structure Pending : Type where
  row : Nat
  col : Nat
  answer : String
  existing_answer : String
deriving DecidableEq, Repr

/-- A Streamlit user-visible message (`st.success` / `st.warning` / `st.info` /
`st.error`); message texts are elided. -/
inductive Msg : Type
  | success : Msg
  | warning : Msg
  | info : Msg
  | error : Msg
deriving DecidableEq, Repr

/-- Ultimate outcome of each `with_retry`-wrapped remote call site inside
`update_sheet`: `true` when the call returns, `false` when it raises (a
non-transient error, or a transient one after the retries are exhausted).  A
raising call is modelled as having no effect on the sheet. -/
structure RemoteOk : Type where
  find : Bool
  read : Bool
  write : Bool
  append : Bool
  writeNew : Bool
deriving DecidableEq, Repr

/-- The fault-free schedule: every remote call succeeds. -/
def allOk : RemoteOk :=
  ⟨true, true, true, true, true⟩

/-- `update_sheet(username, question_num, answer)` (source lines 62-110):
returns the new sheet, the new pending-overwrite state, and the emitted
messages.  All raised exceptions are caught by the function's
`except Exception` handler, which shows an error message. -/
def update_sheet (sheet : Sheet) (pending : Option Pending) (username : String)
    (question_num : Nat) (answer : String) (ok : RemoteOk) :
    Sheet × Option Pending × List Msg :=
  if ok.find = false then (sheet, pending, [Msg.error])
  else
    match findCell username sheet with
    | some (row_number, _) =>
      if ok.read = false then (sheet, pending, [Msg.error])
      else
        let existing_answer := cellValue sheet row_number (question_num + 1)
        if existing_answer ≠ "" then
          (sheet, some ⟨row_number, question_num + 1, answer, existing_answer⟩, [])
        else if ok.write = false then (sheet, pending, [Msg.error])
        else (updateCell sheet row_number (question_num + 1) answer, pending,
          [Msg.success])
    | none =>
      if ok.append = false then (sheet, pending, [Msg.error])
      else
        let col_count := (rowValues sheet 1).length
        let new_row := [username] ++ List.replicate (col_count - 1) ""
        let sheet2 := appendRow sheet new_row
        match findCell username sheet2 with
        | some (row_number, _) =>
          if ok.writeNew = false then (sheet2, pending, [Msg.error])
          else (updateCell sheet2 row_number (question_num + 1) answer, pending,
            [Msg.success])
        | none => (sheet2, pending, [Msg.error])

/-- The "はい" (yes) button handler of the confirmation panel (source lines
169-180): attempt the stored overwrite; on success report success and clear
`confirm_overwrite`; on failure report an error — the clearing statement sits
inside the `try` block after the write, so a raising write leaves
`confirm_overwrite` (and the stored record) in place. -/
def confirm_yes (sheet : Sheet) (p : Pending) (writeOk : Bool) :
    Sheet × Option Pending × List Msg :=
  if writeOk then (updateCell sheet p.row p.col p.answer, none, [Msg.success])
  else (sheet, some p, [Msg.error])

/-- The "いいえ" (no) button handler (source lines 183-187): report
cancellation and clear `confirm_overwrite`; the sheet is untouched. -/
def confirm_no (sheet : Sheet) (_p : Pending) :
    Sheet × Option Pending × List Msg :=
  (sheet, none, [Msg.info])

/-! ### Timestamp (`add_question`, source lines 112-125)

`datetime.now(pytz.timezone("Asia/Tokyo")).strftime("%Y-%m-%d %H:%M:%S")` is
modelled from the Unix epoch second: Asia/Tokyo is a fixed UTC+9 offset (no
daylight saving), and the Gregorian civil calendar is computed by resolving
whole years from 1970, then whole months. -/

/-- Gregorian leap-year test. -/
def isLeap (y : Nat) : Bool :=
  (y % 4 = 0 && y % 100 ≠ 0) || y % 400 = 0

/-- Number of days of a Gregorian year. -/
def daysInYear (y : Nat) : Nat :=
  if isLeap y then 366 else 365

/-- Resolve a day count into (year, day-of-year), consuming whole years; the
first argument is recursion fuel (`days` itself is always enough, as every
step consumes at least 365 days). -/
def resolveYearGo : Nat → Nat → Nat → Nat × Nat
  | 0, y, days => (y, days)
  | fuel + 1, y, days =>
    if daysInYear y ≤ days then resolveYearGo fuel (y + 1) (days - daysInYear y)
    else (y, days)

/-- Year and 0-based day-of-year of a number of days counted from 1970-01-01. -/
def resolveYear (days : Nat) : Nat × Nat :=
  resolveYearGo days 1970 days

/-- Month lengths of a (leap or common) Gregorian year. -/
def monthLengths (leap : Bool) : List Nat :=
  [31, if leap then 29 else 28, 31, 30, 31, 30, 31, 31, 30, 31, 30, 31]

/-- Resolve a 0-based day-of-year into (month, 0-based day-of-month). -/
def resolveMonthGo : List Nat → Nat → Nat → Nat × Nat
  | [], m, d => (m, d)
  | len :: rest, m, d =>
    if len ≤ d then resolveMonthGo rest (m + 1) (d - len) else (m, d)

/-- Month (1-based) and 0-based day-of-month from a 0-based day-of-year. -/
def monthDay (leap : Bool) (doy : Nat) : Nat × Nat :=
  resolveMonthGo (monthLengths leap) 1 doy

/-- Zero-padded two-digit decimal rendering (`%m`, `%d`, `%H`, `%M`, `%S`). -/
def pad2 (n : Nat) : String :=
  if n < 10 then "0" ++ toString n else toString n

/-- The timestamp string computed by `add_question` for a call at Unix epoch
second `epoch`: UTC+9 civil time formatted as `%Y-%m-%d %H:%M:%S`. -/
def tokyoTimestamp (epoch : Nat) : String :=
  let t := epoch + 9 * 3600
  let days := t / 86400
  let secs := t % 86400
  let yd := resolveYear days
  let md := monthDay (isLeap yd.1) yd.2
  toString yd.1 ++ "-" ++ pad2 md.1 ++ "-" ++ pad2 (md.2 + 1) ++ " " ++
    pad2 (secs / 3600) ++ ":" ++ pad2 (secs % 3600 / 60) ++ ":" ++
    pad2 (secs % 60)

/-- Checks the shape `YYYY-MM-DD HH:MM:SS`: nineteen characters, decimal digits
except for the two dashes, the space and the two colons. -/
def isTimestampFormat (s : String) : Bool :=
  match s.data with
  | [y1, y2, y3, y4, s1, o1, o2, s2, d1, d2, s3, h1, h2, s4, n1, n2, s5, c1, c2] =>
    ([y1, y2, y3, y4, o1, o2, d1, d2, h1, h2, n1, n2, c1, c2].all Char.isDigit)
      && s1 = '-' && s2 = '-' && s3 = ' ' && s4 = ':' && s5 = ':'
  | _ => false

/-- `add_question(name, question)` (source lines 112-125): append
`[name, question, timestamp]` to the question sheet via `with_retry`; `ok`
is the ultimate outcome of the wrapped append, a failure being caught and
reported by the `except Exception` handler. -/
def add_question (qsheet : Sheet) (name question : String) (epoch : Nat)
    (ok : Bool) : Sheet × List Msg :=
  let current_time := tokyoTimestamp epoch
  if ok then (appendRow qsheet [name, question, current_time], [Msg.success])
  else (qsheet, [Msg.error])

/-! ### Sheet lemmas -/

theorem getD_setAt (l : List String) (i v j) :
    (setAt l i v)[j]?.getD "" = if j = i then v else l[j]?.getD "" := by
  have hlen : i < (l ++ List.replicate (i + 1 - l.length) "").length := by
    simp only [List.length_append, List.length_replicate]
    omega
  by_cases h : j = i
  · subst h
    simp [setAt, List.getElem?_set_self hlen]
  · have hne : i ≠ j := fun hc => h hc.symm
    simp only [setAt, List.getElem?_set_ne hne, if_neg h]
    by_cases hj : j < l.length
    · rw [List.getElem?_append_left hj]
    · rw [List.getElem?_append_right (by omega)]
      rw [List.getElem?_eq_none (show l.length ≤ j by omega)]
      rw [List.getElem?_replicate]
      by_cases hlt : j - l.length < i + 1 - l.length <;> simp [hlt]

theorem length_updateCell (s : Sheet) (row col : Nat) (v : String) :
    (updateCell s row col v).length = s.length := by
  unfold updateCell
  split
  · rfl
  · split
    · simp
    · rfl

theorem cellValue_updateCell_self (s : Sheet) (row col : Nat) (v : String)
    (h1 : 1 ≤ row) (h2 : row ≤ s.length) (h3 : 1 ≤ col) :
    cellValue (updateCell s row col v) row col = v := by
  have hrow : ¬(row = 0 || col = 0) = true := by
    simp only [Bool.or_eq_true, decide_eq_true_eq]
    omega
  have hidx : row - 1 < s.length := by omega
  simp only [updateCell, cellValue, if_neg hrow, if_pos h2,
    List.getD_eq_getElem?_getD]
  rw [List.getElem?_set_self hidx]
  simp [getD_setAt]

theorem cellValue_updateCell_ne (s : Sheet) (row col r c : Nat) (v : String)
    (h : r ≠ row ∨ c ≠ col) :
    cellValue (updateCell s row col v) r c = cellValue s r c := by
  unfold updateCell
  split
  · rfl
  · split
    · rename_i hguard hle
      have hrow0 : row ≠ 0 := by
        intro hc
        simp [hc] at hguard
      have hcol0 : col ≠ 0 := by
        intro hc
        simp [hc] at hguard
      unfold cellValue
      split
      · rfl
      · rename_i hrc
        have hr0 : r ≠ 0 := by
          intro hc
          simp [hc] at hrc
        have hc0 : c ≠ 0 := by
          intro hc
          simp [hc] at hrc
        simp only [List.getD_eq_getElem?_getD]
        by_cases hrr : r = row
        · subst hrr
          have hcc : c ≠ col := by tauto
          rw [List.getElem?_set_self (by omega)]
          simp only [Option.getD_some]
          rw [getD_setAt, if_neg (by omega)]
        · rw [List.getElem?_set_ne (by omega)]
    · rfl

theorem cellValue_append_last (s : Sheet) (r : List String) (c : Nat)
    (hc : 1 ≤ c) :
    cellValue (s ++ [r]) (s.length + 1) c = r[c - 1]?.getD "" := by
  have hguard : ¬(s.length + 1 = 0 || c = 0) = true := by
    simp only [Bool.or_eq_true, decide_eq_true_eq]
    omega
  simp only [cellValue, if_neg hguard, Nat.add_sub_cancel,
    List.getD_eq_getElem?_getD]
  rw [List.getElem?_append_right (by omega)]
  simp

theorem cellValue_append_left (s : Sheet) (r : List String) (rr c : Nat)
    (h : rr ≤ s.length) :
    cellValue (s ++ [r]) rr c = cellValue s rr c := by
  unfold cellValue
  split
  · rfl
  · rename_i hg
    have hr0 : rr ≠ 0 := by
      intro hc
      simp [hc] at hg
    simp only [List.getD_eq_getElem?_getD]
    rw [List.getElem?_append_left (by omega)]

theorem getD_newRow (u : String) (m j : Nat) :
    ([u] ++ List.replicate m "")[j]?.getD "" = if j = 0 then u else "" := by
  by_cases h : j = 0
  · simp [h]
  · rw [if_neg h]
    obtain ⟨j', rfl⟩ : ∃ j', j = j' + 1 := ⟨j - 1, by omega⟩
    simp only [List.singleton_append, List.getElem?_cons_succ]
    rw [List.getElem?_replicate]
    by_cases hlt : j' < m <;> simp [hlt]

theorem findInRow_self (u : String) (rest : List String) :
    findInRow u (u :: rest) = some 1 := by
  simp [findInRow]

theorem findCell_append_of_none (v : String) (s t : Sheet)
    (h : findCell v s = none) :
    findCell v (s ++ t) = (findCell v t).map (fun p => (p.1 + s.length, p.2)) := by
  induction s with
  | nil =>
    simp only [List.nil_append, List.length_nil]
    cases hft : findCell v t with
    | none => simp
    | some p => simp
  | cons r rs ih =>
    simp only [findCell, List.cons_append] at h ⊢
    cases hfr : findInRow v r with
    | some j =>
      rw [hfr] at h
      simp at h
    | none =>
      rw [hfr] at h
      dsimp only at h ⊢
      rw [Option.map_eq_none'] at h
      rw [List.append_eq, ih h]
      cases hft : findCell v t with
      | none => simp
      | some p =>
        simp only [Option.map_some', Option.some.injEq, Prod.mk.injEq,
          List.length_cons]
        exact ⟨by omega, trivial⟩

theorem findCell_append_newRow (v : String) (s : Sheet) (rest : List String)
    (h : findCell v s = none) :
    findCell v (s ++ [v :: rest]) = some (s.length + 1, 1) := by
  rw [findCell_append_of_none v s _ h]
  simp only [findCell, findInRow_self]
  simp [Nat.add_comm]

/-! ### Retry executor lemmas -/

/-- The warning/sleep trace produced by `k` consecutive transient failures
starting at 0-based attempt index `attempt`. -/
def backoffEventsFrom (rand : Nat → ℚ) (delayBase : ℚ) : Nat → Nat → List RetryEvent
  | _, 0 => []
  | attempt, k + 1 =>
    .warn (attempt + 1) (delayBase * (1 + (attempt : ℚ)) * (1/2 + rand attempt)) ::
    .sleep (delayBase * (1 + (attempt : ℚ)) * (1/2 + rand attempt)) ::
    backoffEventsFrom rand delayBase (attempt + 1) k

theorem withRetryGo_zero (f : Nat → Attempt α) (rand : Nat → ℚ) (mr : Nat)
    (b : ℚ) (attempt : Nat) :
    withRetryGo f rand mr b 0 attempt = ⟨.ok none, 0, []⟩ :=
  rfl

theorem withRetryGo_succ (f : Nat → Attempt α) (rand : Nat → ℚ) (mr : Nat)
    (b : ℚ) (rem attempt : Nat) :
    withRetryGo f rand mr b (rem + 1) attempt =
      match f attempt with
      | .ok a => ⟨.ok (some a), 1, []⟩
      | .raise .otherError => ⟨.error .otherError, 1, []⟩
      | .raise .apiError =>
        if attempt = mr - 1 then ⟨.error .apiError, 1, []⟩
        else
          ⟨(withRetryGo f rand mr b rem (attempt + 1)).result,
           (withRetryGo f rand mr b rem (attempt + 1)).calls + 1,
           .warn (attempt + 1) (b * (1 + (attempt : ℚ)) * (1/2 + rand attempt)) ::
           .sleep (b * (1 + (attempt : ℚ)) * (1/2 + rand attempt)) ::
           (withRetryGo f rand mr b rem (attempt + 1)).events⟩ :=
  rfl

theorem withRetryGo_ok (f : Nat → Attempt α) (rand : Nat → ℚ) (mr : Nat)
    (b : ℚ) (a : α) :
    ∀ k rem attempt, attempt + rem = mr → k < rem →
      (∀ i, i < k → f (attempt + i) = .raise .apiError) → f (attempt + k) = .ok a →
      withRetryGo f rand mr b rem attempt =
        ⟨.ok (some a), k + 1, backoffEventsFrom rand b attempt k⟩ := by
  intro k
  induction k with
  | zero =>
    intro rem attempt hsum hlt _ hok
    match rem, hlt with
    | rem' + 1, _ =>
      rw [Nat.add_zero] at hok
      rw [withRetryGo_succ, hok]
      rfl
  | succ k ih =>
    intro rem attempt hsum hlt hapi hok
    match rem, hlt with
    | rem' + 1, _ =>
      have h0 : f attempt = .raise .apiError := by
        have := hapi 0 (by omega)
        rwa [Nat.add_zero] at this
      have hne : attempt ≠ mr - 1 := by omega
      have hrec := ih rem' (attempt + 1) (by omega) (by omega)
        (fun i hi => by
          have := hapi (i + 1) (by omega)
          rwa [show attempt + (i + 1) = attempt + 1 + i by omega] at this)
        (by rwa [show attempt + (k + 1) = attempt + 1 + k by omega] at hok)
      rw [withRetryGo_succ, h0]
      dsimp only
      rw [if_neg hne, hrec]
      rfl

theorem withRetryGo_api (f : Nat → Attempt α) (rand : Nat → ℚ) (mr : Nat)
    (b : ℚ) (hapi : ∀ i, f i = .raise .apiError) :
    ∀ rem attempt, attempt + rem = mr → 1 ≤ rem →
      withRetryGo f rand mr b rem attempt =
        ⟨.error .apiError, rem, backoffEventsFrom rand b attempt (rem - 1)⟩ := by
  intro rem
  induction rem with
  | zero => omega
  | succ rem' ih =>
    intro attempt hsum _
    cases rem' with
    | zero =>
      have heq : attempt = mr - 1 := by omega
      rw [withRetryGo_succ, hapi attempt]
      dsimp only
      rw [if_pos heq]
      rfl
    | succ rr =>
      have hne : attempt ≠ mr - 1 := by omega
      have hrec := ih (attempt + 1) (by omega) (by omega)
      rw [withRetryGo_succ, hapi attempt]
      dsimp only
      rw [if_neg hne, hrec]
      rfl

theorem withRetryGo_other (f : Nat → Attempt α) (rand : Nat → ℚ) (mr : Nat)
    (b : ℚ) :
    ∀ k rem attempt, attempt + rem = mr → k < rem →
      (∀ i, i < k → f (attempt + i) = .raise .apiError) →
      f (attempt + k) = .raise .otherError →
      withRetryGo f rand mr b rem attempt =
        ⟨.error .otherError, k + 1, backoffEventsFrom rand b attempt k⟩ := by
  intro k
  induction k with
  | zero =>
    intro rem attempt hsum hlt _ hother
    match rem, hlt with
    | rem' + 1, _ =>
      rw [Nat.add_zero] at hother
      rw [withRetryGo_succ, hother]
      rfl
  | succ k ih =>
    intro rem attempt hsum hlt hapi hother
    match rem, hlt with
    | rem' + 1, _ =>
      have h0 : f attempt = .raise .apiError := by
        have := hapi 0 (by omega)
        rwa [Nat.add_zero] at this
      have hne : attempt ≠ mr - 1 := by omega
      have hrec := ih rem' (attempt + 1) (by omega) (by omega)
        (fun i hi => by
          have := hapi (i + 1) (by omega)
          rwa [show attempt + (i + 1) = attempt + 1 + i by omega] at this)
        (by rwa [show attempt + (k + 1) = attempt + 1 + k by omega] at hother)
      rw [withRetryGo_succ, h0]
      dsimp only
      rw [if_neg hne, hrec]
      rfl

theorem withRetryGo_warn_mem (f : Nat → Attempt α) (rand : Nat → ℚ) (mr : Nat)
    (b : ℚ) :
    ∀ rem attempt k d,
      RetryEvent.warn k d ∈ (withRetryGo f rand mr b rem attempt).events →
      attempt < k ∧ d = b * (k : ℚ) * (1/2 + rand (k - 1)) := by
  intro rem
  induction rem with
  | zero =>
    intro attempt k d hmem
    rw [withRetryGo_zero] at hmem
    simp at hmem
  | succ rem' ih =>
    intro attempt k d hmem
    rw [withRetryGo_succ] at hmem
    cases hfa : f attempt with
    | ok a =>
      rw [hfa] at hmem
      simp at hmem
    | raise e =>
      cases e with
      | otherError =>
        rw [hfa] at hmem
        simp at hmem
      | apiError =>
        rw [hfa] at hmem
        dsimp only at hmem
        by_cases hlast : attempt = mr - 1
        · rw [if_pos hlast] at hmem
          simp at hmem
        · rw [if_neg hlast] at hmem
          simp only [List.mem_cons] at hmem
          rcases hmem with h | h | h
          · obtain ⟨hk, hd⟩ := RetryEvent.warn.inj h
            subst hk
            subst hd
            refine ⟨by omega, ?_⟩
            rw [Nat.add_sub_cancel]
            push_cast
            ring
          · exact absurd h (by simp)
          · have h' := ih (attempt + 1) k d h
            exact ⟨by omega, h'.2⟩

theorem withRetryGo_warn_sleep (f : Nat → Attempt α) (rand : Nat → ℚ) (mr : Nat)
    (b : ℚ) :
    ∀ rem attempt l1 l2 k d,
      (withRetryGo f rand mr b rem attempt).events = l1 ++ RetryEvent.warn k d :: l2 →
      l2.head? = some (RetryEvent.sleep d) := by
  intro rem
  induction rem with
  | zero =>
    intro attempt l1 l2 k d heq
    rw [withRetryGo_zero] at heq
    simp at heq
  | succ rem' ih =>
    intro attempt l1 l2 k d heq
    rw [withRetryGo_succ] at heq
    cases hfa : f attempt with
    | ok a =>
      rw [hfa] at heq
      simp at heq
    | raise e =>
      cases e with
      | otherError =>
        rw [hfa] at heq
        simp at heq
      | apiError =>
        rw [hfa] at heq
        dsimp only at heq
        by_cases hlast : attempt = mr - 1
        · rw [if_pos hlast] at heq
          simp at heq
        · rw [if_neg hlast] at heq
          dsimp only at heq
          match l1, heq with
          | [], heq =>
            simp only [List.nil_append, List.cons.injEq] at heq
            obtain ⟨hw, hrest⟩ := heq
            obtain ⟨-, hd⟩ := RetryEvent.warn.inj hw
            rw [← hrest, hd]
            rfl
          | [x], heq =>
            simp only [List.cons_append, List.nil_append, List.cons.injEq] at heq
            exact absurd heq.2.1 (by simp)
          | x :: y :: t, heq =>
            simp only [List.cons_append, List.cons.injEq] at heq
            exact ih (attempt + 1) t l2 k d heq.2.2

/-! ### Claims about the retry executor -/

/-- Claim C3: with 3 maximum attempts, an operation raising a transient
remote-API error on every attempt is invoked exactly 3 times and the final
failure is re-raised (no 4th invocation); an operation failing transiently on
attempt 1 and succeeding on attempt 2 is invoked exactly twice and the executor
returns that attempt's result. -/
theorem retry_three_attempts (f g : Nat → Attempt α) (rand : Nat → ℚ)
    (delayBase : ℚ) (a : α) (hf : ∀ n, f n = .raise .apiError)
    (hg0 : g 0 = .raise .apiError) (hg1 : g 1 = .ok a) :
    ((with_retry f rand 3 delayBase).result = .error .apiError ∧
      (with_retry f rand 3 delayBase).calls = 3) ∧
    ((with_retry g rand 3 delayBase).result = .ok (some a) ∧
      (with_retry g rand 3 delayBase).calls = 2) := by
  have h1 := withRetryGo_api f rand 3 delayBase hf 3 0 (by omega) (by omega)
  have h2 := withRetryGo_ok g rand 3 delayBase a 1 3 0 (by omega) (by omega)
    (fun i hi => by
      have : i = 0 := by omega
      subst this
      exact hg0)
    hg1
  rw [with_retry, h1, with_retry, h2]
  exact ⟨⟨rfl, rfl⟩, rfl, rfl⟩

/-- Claim C3 witness: concrete runs of the retry executor with 3 attempts. -/
theorem retry_three_attempts_witness :
    ((with_retry (fun _ => (Attempt.raise PyErr.apiError : Attempt Nat))
        (fun _ => 1/4) 3 2).result = .error .apiError ∧
      (with_retry (fun _ => (Attempt.raise PyErr.apiError : Attempt Nat))
        (fun _ => 1/4) 3 2).calls = 3) ∧
    ((with_retry (fun n => if n = 0 then Attempt.raise PyErr.apiError
        else Attempt.ok 7) (fun _ => 1/4) 3 2).result = .ok (some 7) ∧
      (with_retry (fun n => if n = 0 then Attempt.raise PyErr.apiError
        else Attempt.ok 7) (fun _ => 1/4) 3 2).calls = 2) :=
  retry_three_attempts (fun _ => Attempt.raise PyErr.apiError)
    (fun n => if n = 0 then Attempt.raise PyErr.apiError else Attempt.ok 7)
    (fun _ => 1/4) 2 7 (fun _ => rfl) rfl rfl

/-- Claim C7: an error not classified as a transient remote-API error
propagates to the caller immediately from the attempt in which it is raised:
the operation is not invoked again, and the event trace holds only the
warnings/sleeps of the earlier transient failures — none for this error. -/
theorem retry_other_error_immediate (f : Nat → Attempt α) (rand : Nat → ℚ)
    (maxRetries : Nat) (delayBase : ℚ) (k : Nat) (hk : k < maxRetries)
    (hapi : ∀ i, i < k → f i = .raise .apiError)
    (hother : f k = .raise .otherError) :
    (with_retry f rand maxRetries delayBase).result = .error .otherError ∧
    (with_retry f rand maxRetries delayBase).calls = k + 1 ∧
    (with_retry f rand maxRetries delayBase).events =
      backoffEventsFrom rand delayBase 0 k := by
  have h := withRetryGo_other f rand maxRetries delayBase k maxRetries 0
    (by omega) hk (fun i hi => by simpa using hapi i hi) (by simpa using hother)
  rw [with_retry, h]
  exact ⟨rfl, rfl, rfl⟩

/-- Claim C7 witness: a non-transient error on the very first attempt gives a
single invocation and an empty warning/sleep trace. -/
theorem retry_other_error_immediate_witness :
    (with_retry (fun _ => (Attempt.raise PyErr.otherError : Attempt Nat))
      (fun _ => 1/4) 3 2).result = .error .otherError ∧
    (with_retry (fun _ => (Attempt.raise PyErr.otherError : Attempt Nat))
      (fun _ => 1/4) 3 2).calls = 0 + 1 ∧
    (with_retry (fun _ => (Attempt.raise PyErr.otherError : Attempt Nat))
      (fun _ => 1/4) 3 2).events = backoffEventsFrom (fun _ => 1/4) 2 0 0 :=
  retry_other_error_immediate (fun _ => Attempt.raise PyErr.otherError)
    (fun _ => 1/4) 3 2 0 (by omega) (fun i hi => absurd hi (by omega)) rfl

/-- Claim C8: every warning in the retry trace for base delay `b` carries, for
some 1-based failed-attempt count `k`, the delay `b * k * (1/2 + r)` with `r`
the random draw of that attempt; with `0 ≤ r < 1` the delay lies in
`[0.5*b*k, 1.5*b*k)`; and the warning is immediately followed by the sleep of
exactly that computed delay (the warning is surfaced before each retry). -/
theorem retry_backoff_delay (f : Nat → Attempt α) (rand : Nat → ℚ)
    (maxRetries : Nat) (delayBase : ℚ) (hb : 0 < delayBase)
    (hr : ∀ i, 0 ≤ rand i ∧ rand i < 1) :
    (∀ k d, RetryEvent.warn k d ∈ (with_retry f rand maxRetries delayBase).events →
      d = delayBase * (k : ℚ) * (1/2 + rand (k - 1)) ∧ 1 ≤ k ∧
      delayBase * (k : ℚ) * (1/2) ≤ d ∧ d < delayBase * (k : ℚ) * (3/2)) ∧
    (∀ l1 l2 k d,
      (with_retry f rand maxRetries delayBase).events =
        l1 ++ RetryEvent.warn k d :: l2 →
      l2.head? = some (RetryEvent.sleep d)) := by
  constructor
  · intro k d hmem
    have h := withRetryGo_warn_mem f rand maxRetries delayBase maxRetries 0 k d hmem
    obtain ⟨hk, hd⟩ := h
    have hkq : (1 : ℚ) ≤ (k : ℚ) := by exact_mod_cast hk
    obtain ⟨hr0, hr1⟩ := hr (k - 1)
    refine ⟨hd, hk, ?_, ?_⟩
    · rw [hd]
      have hbk : 0 < delayBase * (k : ℚ) := by positivity
      nlinarith
    · rw [hd]
      have hbk : 0 < delayBase * (k : ℚ) := by positivity
      nlinarith
  · intro l1 l2 k d heq
    exact withRetryGo_warn_sleep f rand maxRetries delayBase maxRetries 0 l1 l2 k d heq

/-- Claim C8 witness: in the all-transient run with base delay 2 and constant
random draw 1/4, the first warning carries delay 3/2 = 2 * 1 * (1/2 + 1/4), the
bounds hold, and the warning is followed by the matching sleep. -/
theorem retry_backoff_delay_witness :
    ((3/2 : ℚ) = 2 * ((1 : Nat) : ℚ) * (1/2 + 1/4) ∧ 1 ≤ 1 ∧
      2 * ((1 : Nat) : ℚ) * (1/2) ≤ (3/2 : ℚ) ∧
      (3/2 : ℚ) < 2 * ((1 : Nat) : ℚ) * (3/2)) ∧
    ([RetryEvent.sleep (3/2), RetryEvent.warn 2 3,
        RetryEvent.sleep 3].head? = some (RetryEvent.sleep (3/2 : ℚ))) := by
  have h := retry_backoff_delay (fun _ => (Attempt.raise PyErr.apiError : Attempt Nat))
    (fun _ => 1/4) 3 2 (by norm_num) (fun i => ⟨by norm_num, by norm_num⟩)
  have hev : (with_retry (fun _ => (Attempt.raise PyErr.apiError : Attempt Nat))
      (fun _ => 1/4) 3 2).events =
      [RetryEvent.warn 1 (3/2), RetryEvent.sleep (3/2), RetryEvent.warn 2 3,
        RetryEvent.sleep 3] := by
    rw [with_retry,
      withRetryGo_api _ _ _ _ (fun _ => rfl) 3 0 (by omega) (by omega)]
    show backoffEventsFrom (fun _ => 1/4) 2 0 2 = _
    simp only [backoffEventsFrom]
    norm_num
  constructor
  · have := h.1 1 (3/2) (by rw [hev]; simp)
    have hone : ((1 : Nat) : ℚ) = 1 := by norm_num
    refine ⟨?_, this.2.1, this.2.2.1, this.2.2.2⟩
    rw [hone]
    norm_num
  · have := h.2 [] [RetryEvent.sleep (3/2), RetryEvent.warn 2 3,
      RetryEvent.sleep 3] 1 (3/2) (by rw [hev]; rfl)
    exact this

/-! ### Branch equations for `update_sheet` -/

theorem update_sheet_found_conflict (sheet : Sheet) (pending : Option Pending)
    (username answer : String) (question_num row col : Nat) (ok : RemoteOk)
    (hokf : ok.find = true) (hokr : ok.read = true)
    (hfind : findCell username sheet = some (row, col))
    (hne : cellValue sheet row (question_num + 1) ≠ "") :
    update_sheet sheet pending username question_num answer ok =
      (sheet, some ⟨row, question_num + 1, answer,
        cellValue sheet row (question_num + 1)⟩, []) := by
  simp [update_sheet, hokf, hokr, hfind, hne]

theorem update_sheet_found_empty (sheet : Sheet) (pending : Option Pending)
    (username answer : String) (question_num row col : Nat)
    (hfind : findCell username sheet = some (row, col))
    (he : cellValue sheet row (question_num + 1) = "") :
    update_sheet sheet pending username question_num answer allOk =
      (updateCell sheet row (question_num + 1) answer, pending, [Msg.success]) := by
  simp [update_sheet, allOk, hfind, he]

theorem update_sheet_notfound (sheet : Sheet) (pending : Option Pending)
    (username answer : String) (question_num : Nat)
    (hfind : findCell username sheet = none) :
    update_sheet sheet pending username question_num answer allOk =
      (updateCell
        (appendRow sheet
          ([username] ++ List.replicate ((rowValues sheet 1).length - 1) ""))
        (sheet.length + 1) (question_num + 1) answer, pending, [Msg.success]) := by
  have hnew : findCell username
      (sheet ++ [username :: List.replicate ((rowValues sheet 1).length - 1) ""]) =
      some (sheet.length + 1, 1) :=
    findCell_append_newRow username sheet _ hfind
  simp [update_sheet, allOk, hfind, appendRow, hnew]

/-! ### Claims about the sheet update flow -/

/-- Claim C1: when the username is found, a non-empty existing value at
(row, question_index+1) means no cell is written and the pending-overwrite
record is populated with exactly that row, column, the new answer and the
existing answer — keyed only on non-emptiness, so also when the new answer
equals the existing one; an empty existing value means the answer is written
directly and success is reported with no confirmation prompt. -/
theorem submit_found_conflict_or_write (sheet : Sheet)
    (pending : Option Pending) (username answer : String)
    (question_num row col : Nat)
    (hfind : findCell username sheet = some (row, col)) :
    (cellValue sheet row (question_num + 1) ≠ "" →
      update_sheet sheet pending username question_num answer allOk =
        (sheet, some ⟨row, question_num + 1, answer,
          cellValue sheet row (question_num + 1)⟩, [])) ∧
    (cellValue sheet row (question_num + 1) = "" →
      update_sheet sheet pending username question_num answer allOk =
        (updateCell sheet row (question_num + 1) answer, pending,
          [Msg.success])) :=
  ⟨fun hne => update_sheet_found_conflict sheet pending username answer
      question_num row col allOk rfl rfl hfind hne,
   fun he => update_sheet_found_empty sheet pending username answer
      question_num row col hfind he⟩

/-- Claim C1 witness: resubmitting the identical answer "x" over the existing
"x" still takes the confirmation path (content-blind), and a submission into an
empty cell writes directly with a success report. -/
theorem submit_found_conflict_or_write_witness :
    update_sheet [["Q1", "Q2"], ["alice", "x"]] none "alice" 1 "x" allOk =
      ([["Q1", "Q2"], ["alice", "x"]], some ⟨2, 2, "x", "x"⟩, []) ∧
    update_sheet [["Q1", "Q2"], ["bob", ""]] none "bob" 1 "hi" allOk =
      (updateCell [["Q1", "Q2"], ["bob", ""]] 2 2 "hi", none, [Msg.success]) :=
  ⟨(submit_found_conflict_or_write [["Q1", "Q2"], ["alice", "x"]] none "alice"
      "x" 1 2 1 (by decide)).1 (by decide),
   (submit_found_conflict_or_write [["Q1", "Q2"], ["bob", ""]] none "bob"
      "hi" 1 2 1 (by decide)).2 (by decide)⟩

/-- Claim C2: when the username is not found, a row `[username]` followed by
(header-row column count minus one) empty cells is appended, the row is
re-located by find (at the new last row, column 1), and the answer is written
at (new row, question_index+1); in the resulting sheet that row has the
username in column 1, the answer in column question_index+1, and every other
cell of the row empty. -/
theorem submit_new_user (sheet : Sheet) (pending : Option Pending)
    (username answer : String) (question_num : Nat)
    (hfind : findCell username sheet = none) (hq : 1 ≤ question_num) :
    update_sheet sheet pending username question_num answer allOk =
      (updateCell
        (appendRow sheet
          ([username] ++ List.replicate ((rowValues sheet 1).length - 1) ""))
        (sheet.length + 1) (question_num + 1) answer, pending, [Msg.success]) ∧
    findCell username
      (appendRow sheet
        ([username] ++ List.replicate ((rowValues sheet 1).length - 1) "")) =
      some (sheet.length + 1, 1) ∧
    cellValue
      (updateCell
        (appendRow sheet
          ([username] ++ List.replicate ((rowValues sheet 1).length - 1) ""))
        (sheet.length + 1) (question_num + 1) answer)
      (sheet.length + 1) 1 = username ∧
    cellValue
      (updateCell
        (appendRow sheet
          ([username] ++ List.replicate ((rowValues sheet 1).length - 1) ""))
        (sheet.length + 1) (question_num + 1) answer)
      (sheet.length + 1) (question_num + 1) = answer ∧
    ∀ c, c ≠ 1 → c ≠ question_num + 1 →
      cellValue
        (updateCell
          (appendRow sheet
            ([username] ++ List.replicate ((rowValues sheet 1).length - 1) ""))
          (sheet.length + 1) (question_num + 1) answer)
        (sheet.length + 1) c = "" := by
  have hnew : findCell username
      (appendRow sheet
        ([username] ++ List.replicate ((rowValues sheet 1).length - 1) "")) =
      some (sheet.length + 1, 1) := by
    simpa [appendRow] using
      findCell_append_newRow username sheet
        (List.replicate ((rowValues sheet 1).length - 1) "") hfind
  have hlen2 : (appendRow sheet
      ([username] ++ List.replicate ((rowValues sheet 1).length - 1) "")).length =
      sheet.length + 1 := by
    simp [appendRow]
  refine ⟨update_sheet_notfound sheet pending username answer question_num hfind,
    hnew, ?_, ?_, ?_⟩
  · rw [cellValue_updateCell_ne _ _ _ _ _ _ (Or.inr (by omega))]
    rw [show appendRow sheet
        ([username] ++ List.replicate ((rowValues sheet 1).length - 1) "") =
        sheet ++ [[username] ++ List.replicate ((rowValues sheet 1).length - 1) ""]
      from rfl]
    rw [cellValue_append_last sheet _ 1 (by omega)]
    rw [show (1 : Nat) - 1 = 0 from rfl, getD_newRow]
    rfl
  · exact cellValue_updateCell_self _ _ _ _ (by omega) (by rw [hlen2]) (by omega)
  · intro c hc1 hcq
    by_cases hc0 : c = 0
    · subst hc0
      simp [cellValue]
    · rw [cellValue_updateCell_ne _ _ _ _ _ _ (Or.inr hcq)]
      rw [show appendRow sheet
          ([username] ++ List.replicate ((rowValues sheet 1).length - 1) "") =
          sheet ++ [[username] ++ List.replicate ((rowValues sheet 1).length - 1) ""]
        from rfl]
      rw [cellValue_append_last sheet _ c (by omega)]
      rw [getD_newRow]
      rw [if_neg (by omega)]

/-- Claim C2 witness: a new user on a three-column sheet gets a fresh row with
the username in column 1, the answer in column 3, and column 2 empty. -/
theorem submit_new_user_witness :
    update_sheet [["Q1", "Q2", "Q3"]] none "bob" 2 "hi" allOk =
      (updateCell
        (appendRow [["Q1", "Q2", "Q3"]] (["bob"] ++ List.replicate 2 ""))
        2 3 "hi", none, [Msg.success]) ∧
    cellValue
      (updateCell
        (appendRow [["Q1", "Q2", "Q3"]] (["bob"] ++ List.replicate 2 ""))
        2 3 "hi") 2 1 = "bob" ∧
    cellValue
      (updateCell
        (appendRow [["Q1", "Q2", "Q3"]] (["bob"] ++ List.replicate 2 ""))
        2 3 "hi") 2 3 = "hi" ∧
    cellValue
      (updateCell
        (appendRow [["Q1", "Q2", "Q3"]] (["bob"] ++ List.replicate 2 ""))
        2 3 "hi") 2 2 = "" := by
  have h := submit_new_user [["Q1", "Q2", "Q3"]] none "bob" "hi" 2
    (by decide) (by decide)
  exact ⟨h.1, h.2.2.1, h.2.2.2.1, h.2.2.2.2 2 (by decide) (by decide)⟩

/-- Claim C4: while a pending overwrite is set, the conflicting submission
itself mutates no cell; confirming "yes" writes the stored new answer at the
stored (row, column), overwriting the old value, and clears the record;
confirming "no" discards the record with no write, leaving the sheet (hence the
old cell value) unchanged. -/
theorem pending_confirmation_protocol (sheet : Sheet) (p : Pending)
    (h1 : 1 ≤ p.row) (h2 : p.row ≤ sheet.length) (h3 : 1 ≤ p.col) :
    (∀ pending username answer question_num row col,
      findCell username sheet = some (row, col) →
      cellValue sheet row (question_num + 1) ≠ "" →
      (update_sheet sheet pending username question_num answer allOk).1 = sheet) ∧
    confirm_yes sheet p true =
      (updateCell sheet p.row p.col p.answer, none, [Msg.success]) ∧
    cellValue (updateCell sheet p.row p.col p.answer) p.row p.col = p.answer ∧
    confirm_no sheet p = (sheet, none, [Msg.info]) := by
  refine ⟨?_, rfl, ?_, rfl⟩
  · intro pending username answer question_num row col hfind hne
    rw [update_sheet_found_conflict sheet pending username answer question_num
      row col allOk rfl rfl hfind hne]
  · exact cellValue_updateCell_self sheet p.row p.col p.answer h1 h2 h3

/-- Claim C4 witness: on a concrete sheet, the conflicting submission leaves
the sheet unchanged, "yes" writes the stored answer into the stored cell, and
"no" leaves the sheet as it was. -/
theorem pending_confirmation_protocol_witness :
    (update_sheet [["Q"], ["u", "old"]] none "u" 1 "x" allOk).1 =
      [["Q"], ["u", "old"]] ∧
    confirm_yes [["Q"], ["u", "old"]] ⟨2, 2, "new", "old"⟩ true =
      (updateCell [["Q"], ["u", "old"]] 2 2 "new", none, [Msg.success]) ∧
    cellValue (updateCell [["Q"], ["u", "old"]] 2 2 "new") 2 2 = "new" ∧
    confirm_no [["Q"], ["u", "old"]] ⟨2, 2, "new", "old"⟩ =
      ([["Q"], ["u", "old"]], none, [Msg.info]) := by
  have h := pending_confirmation_protocol [["Q"], ["u", "old"]]
    ⟨2, 2, "new", "old"⟩ (by decide) (by decide) (by decide)
  refine ⟨?_, h.2.1, h.2.2.1, h.2.2.2⟩
  rw [h.1 none "u" "x" 1 2 1 (by decide) (by decide)]

/-- Claim C5 counterexample: when the confirmed overwrite raises, the pending
record is NOT cleared — the clearing statement sits inside the `try` block
after the write — so the system stays in the await-confirmation state,
refuting the claimed "returns to Idle on both success and failure". -/
theorem confirm_yes_failure_counterexample :
    (confirm_yes [["Q"], ["u", "old"]] ⟨2, 2, "new", "old"⟩ false).2.1 ≠
      none := by
  decide

/-- Claim C5 (amended): from AwaitConfirmation, "confirm yes" returns to Idle
(pending cleared) only when the write succeeds; when the write fails, the
pending record is retained — the system remains in AwaitConfirmation with an
error reported, and the sheet is unchanged. -/
theorem confirm_yes_clears_only_on_success (sheet : Sheet) (p : Pending) :
    (confirm_yes sheet p true).2.1 = none ∧
    confirm_yes sheet p false = (sheet, some p, [Msg.error]) :=
  ⟨rfl, rfl⟩

/-- Claim C6: every remote failure inside `update_sheet` is caught at the flow
boundary and reported as a visible error message (never propagated), and the
pending-overwrite record is set only after a successful find and read of a
non-empty cell — with any other outcome, including a failed find or read, the
pending state is left exactly as it was. -/
theorem submit_error_containment (sheet : Sheet) (pending : Option Pending)
    (username answer : String) (question_num : Nat) (ok : RemoteOk) :
    ((update_sheet sheet pending username question_num answer ok).2.1 =
        pending ∨
      (ok.find = true ∧ ok.read = true ∧
        ∃ row col, findCell username sheet = some (row, col) ∧
          cellValue sheet row (question_num + 1) ≠ "" ∧
          update_sheet sheet pending username question_num answer ok =
            (sheet, some ⟨row, question_num + 1, answer,
              cellValue sheet row (question_num + 1)⟩, []))) ∧
    (ok.find = false →
      update_sheet sheet pending username question_num answer ok =
        (sheet, pending, [Msg.error])) ∧
    (ok.find = true → ok.read = false →
      (∃ row col, findCell username sheet = some (row, col)) →
      update_sheet sheet pending username question_num answer ok =
        (sheet, pending, [Msg.error])) := by
  refine ⟨?_, ?_, ?_⟩
  · by_cases hf : ok.find = false
    · exact Or.inl (by simp [update_sheet, hf])
    · have hf' : ok.find = true := by simpa using hf
      cases hfc : findCell username sheet with
      | some rc =>
        obtain ⟨row, col⟩ := rc
        by_cases hr : ok.read = false
        · exact Or.inl (by simp [update_sheet, hf', hfc, hr])
        · have hr' : ok.read = true := by simpa using hr
          by_cases hne : cellValue sheet row (question_num + 1) = ""
          · left
            by_cases hw : ok.write = false
            · simp [update_sheet, hf', hfc, hr', hne, hw]
            · have hw' : ok.write = true := by simpa using hw
              simp [update_sheet, hf', hfc, hr', hne, hw']
          · exact Or.inr ⟨hf', hr', row, col, rfl, hne,
              update_sheet_found_conflict sheet pending username answer
                question_num row col ok hf' hr' hfc hne⟩
      | none =>
        left
        by_cases ha : ok.append = false
        · simp [update_sheet, hf', hfc, ha]
        · have ha' : ok.append = true := by simpa using ha
          cases h2 : findCell username
            (appendRow sheet
              (username ::
                List.replicate ((rowValues sheet 1).length - 1) "")) with
          | some rc2 =>
            obtain ⟨r2, c2⟩ := rc2
            by_cases hwn : ok.writeNew = false
            · simp [update_sheet, hf', hfc, ha', h2, hwn]
            · have hwn' : ok.writeNew = true := by simpa using hwn
              simp [update_sheet, hf', hfc, ha', h2, hwn']
          | none => simp [update_sheet, hf', hfc, ha', h2]
  · intro hf
    simp [update_sheet, hf]
  · intro hf hr hex
    obtain ⟨row, col, hfind⟩ := hex
    simp [update_sheet, hf, hr, hfind]

/-- Claim C6 witness: a failed find and a failed read each leave the sheet and
the pending state untouched and produce a single visible error message. -/
theorem submit_error_containment_witness :
    update_sheet [["Q"], ["u", "x"]] none "u" 1 "y"
      ⟨false, true, true, true, true⟩ = ([["Q"], ["u", "x"]], none, [Msg.error]) ∧
    update_sheet [["Q"], ["u", "x"]] none "u" 1 "y"
      ⟨true, false, true, true, true⟩ =
      ([["Q"], ["u", "x"]], none, [Msg.error]) := by
  have ha := submit_error_containment [["Q"], ["u", "x"]] none "u" "y" 1
    ⟨false, true, true, true, true⟩
  have hb := submit_error_containment [["Q"], ["u", "x"]] none "u" "y" 1
    ⟨true, false, true, true, true⟩
  exact ⟨ha.2.1 rfl, hb.2.2 rfl rfl ⟨2, 1, by decide⟩⟩

/-- Claim C10 (frame property): one submission mutates at most the target cell
(row of the username, question_index+1); in the new-user case it additionally
appends exactly one row; cells outside the target cell (and outside the
appended row) keep their prior values, and in the pending-confirmation branch
nothing is mutated at all. -/
theorem submit_frame_property (sheet : Sheet) (pending : Option Pending)
    (username answer : String) (question_num : Nat) :
    (∀ row col, findCell username sheet = some (row, col) →
      (cellValue sheet row (question_num + 1) ≠ "" →
        (update_sheet sheet pending username question_num answer allOk).1 =
          sheet) ∧
      (cellValue sheet row (question_num + 1) = "" →
        (update_sheet sheet pending username question_num answer allOk).1.length =
          sheet.length ∧
        ∀ r c, ¬(r = row ∧ c = question_num + 1) →
          cellValue
            (update_sheet sheet pending username question_num answer allOk).1
            r c = cellValue sheet r c)) ∧
    (findCell username sheet = none →
      (update_sheet sheet pending username question_num answer allOk).1.length =
        sheet.length + 1 ∧
      ∀ r c, r ≤ sheet.length →
        cellValue
          (update_sheet sheet pending username question_num answer allOk).1
          r c = cellValue sheet r c) := by
  constructor
  · intro row col hfind
    constructor
    · intro hne
      rw [update_sheet_found_conflict sheet pending username answer
        question_num row col allOk rfl rfl hfind hne]
    · intro he
      rw [update_sheet_found_empty sheet pending username answer
        question_num row col hfind he]
      refine ⟨length_updateCell sheet row (question_num + 1) answer, ?_⟩
      intro r c hnc
      exact cellValue_updateCell_ne sheet row (question_num + 1) r c answer
        (by tauto)
  · intro hfind
    rw [update_sheet_notfound sheet pending username answer question_num hfind]
    constructor
    · rw [length_updateCell]
      simp [appendRow]
    · intro r c hr
      rw [cellValue_updateCell_ne _ _ _ _ _ _ (Or.inl (by omega))]
      rw [show appendRow sheet
          ([username] ++ List.replicate ((rowValues sheet 1).length - 1) "") =
          sheet ++
            [[username] ++ List.replicate ((rowValues sheet 1).length - 1) ""]
        from rfl]
      exact cellValue_append_left sheet _ r c hr

/-- Claim C10 witness: frame checks on concrete sheets for the conflict, the
direct-write and the new-user branches. -/
theorem submit_frame_property_witness :
    (update_sheet [["Q1", "Q2"], ["u", "x"]] none "u" 1 "y" allOk).1 =
      [["Q1", "Q2"], ["u", "x"]] ∧
    (update_sheet [["Q1", "Q2"], ["u", "x"]] none "u" 2 "y" allOk).1.length = 2 ∧
    cellValue (update_sheet [["Q1", "Q2"], ["u", "x"]] none "u" 2 "y" allOk).1
      2 2 = cellValue [["Q1", "Q2"], ["u", "x"]] 2 2 ∧
    (update_sheet [["Q1", "Q2"]] none "bob" 1 "y" allOk).1.length = 2 ∧
    cellValue (update_sheet [["Q1", "Q2"]] none "bob" 1 "y" allOk).1 1 2 =
      cellValue [["Q1", "Q2"]] 1 2 := by
  have h1 := submit_frame_property [["Q1", "Q2"], ["u", "x"]] none "u" "y" 1
  have h2 := submit_frame_property [["Q1", "Q2"], ["u", "x"]] none "u" "y" 2
  have h3 := submit_frame_property [["Q1", "Q2"]] none "bob" "y" 1
  exact ⟨(h1.1 2 1 (by decide)).1 (by decide),
    ((h2.1 2 1 (by decide)).2 (by decide)).1,
    ((h2.1 2 1 (by decide)).2 (by decide)).2 2 2 (by simp),
    (h3.2 (by decide)).1,
    (h3.2 (by decide)).2 1 2 (by decide)⟩

/-! ### Timestamp lemmas -/

theorem resolveYearGo_zero (y days : Nat) : resolveYearGo 0 y days = (y, days) :=
  rfl

theorem resolveYearGo_succ (fuel y days : Nat) :
    resolveYearGo (fuel + 1) y days =
      if daysInYear y ≤ days then resolveYearGo fuel (y + 1) (days - daysInYear y)
      else (y, days) :=
  rfl

theorem daysInYear_ge (y : Nat) : 365 ≤ daysInYear y := by
  unfold daysInYear
  split <;> omega

theorem resolveYearGo_spec :
    ∀ fuel y days, days ≤ fuel →
      (resolveYearGo fuel y days).2 < daysInYear (resolveYearGo fuel y days).1 ∧
      y ≤ (resolveYearGo fuel y days).1 ∧
      (resolveYearGo fuel y days).1 ≤ y + days / 365 := by
  intro fuel
  induction fuel with
  | zero =>
    intro y days hd
    have h0 : days = 0 := by omega
    subst h0
    rw [resolveYearGo_zero]
    dsimp only
    have := daysInYear_ge y
    exact ⟨by omega, le_refl y, by omega⟩
  | succ fuel ih =>
    intro y days hd
    rw [resolveYearGo_succ]
    by_cases h : daysInYear y ≤ days
    · rw [if_pos h]
      have hL := daysInYear_ge y
      have hrec := ih (y + 1) (days - daysInYear y) (by omega)
      refine ⟨hrec.1, by omega, ?_⟩
      have e1 : (days - daysInYear y) / 365 + 1 =
          (days - daysInYear y + 365) / 365 := by
        rw [Nat.add_div_right _ (by norm_num)]
      have e2 : (days - daysInYear y + 365) / 365 ≤ days / 365 :=
        Nat.div_le_div_right (by omega)
      omega
    · rw [if_neg h]
      dsimp only
      exact ⟨by omega, le_refl y, by omega⟩

theorem resolveMonthGo_nil (m d : Nat) : resolveMonthGo [] m d = (m, d) :=
  rfl

theorem resolveMonthGo_cons (len : Nat) (rest : List Nat) (m d : Nat) :
    resolveMonthGo (len :: rest) m d =
      if len ≤ d then resolveMonthGo rest (m + 1) (d - len) else (m, d) :=
  rfl

theorem resolveMonthGo_day_lt (ms : List Nat) :
    ∀ m d, d < ms.sum → (∀ x ∈ ms, x ≤ 31) → (resolveMonthGo ms m d).2 < 31 := by
  induction ms with
  | nil =>
    intro m d hd _
    simp at hd
  | cons len rest ih =>
    intro m d hd hel
    rw [resolveMonthGo_cons]
    by_cases h : len ≤ d
    · rw [if_pos h]
      refine ih (m + 1) (d - len) ?_ (fun x hx => hel x (List.mem_cons_of_mem _ hx))
      have hsum : (len :: rest).sum = len + rest.sum := List.sum_cons
      omega
    · rw [if_neg h]
      have := hel len (List.mem_cons_self _ _)
      dsimp only
      omega

theorem resolveMonthGo_month_le (ms : List Nat) :
    ∀ m d, (resolveMonthGo ms m d).1 ≤ m + ms.length := by
  induction ms with
  | nil =>
    intro m d
    rw [resolveMonthGo_nil]
    simp
  | cons len rest ih =>
    intro m d
    rw [resolveMonthGo_cons]
    by_cases h : len ≤ d
    · rw [if_pos h]
      have := ih (m + 1) (d - len)
      simp only [List.length_cons]
      omega
    · rw [if_neg h]
      simp only [List.length_cons]
      omega

theorem monthDay_bounds (leap : Bool) (doy : Nat)
    (h : doy < (monthLengths leap).sum) :
    (monthDay leap doy).1 < 100 ∧ (monthDay leap doy).2 + 1 < 100 := by
  constructor
  · have h1 := resolveMonthGo_month_le (monthLengths leap) 1 doy
    have h2 : (monthLengths leap).length = 12 := by cases leap <;> rfl
    rw [monthDay] at *
    omega
  · have h1 := resolveMonthGo_day_lt (monthLengths leap) 1 doy h
      (by cases leap <;> decide)
    rw [monthDay] at *
    omega

set_option maxRecDepth 20000 in
theorem pad2_format :
    ∀ n, n < 100 →
      (pad2 n).data.length = 2 ∧ (pad2 n).data.all Char.isDigit = true := by
  decide

set_option maxRecDepth 20000 in
theorem year_format_offset :
    ∀ k, k < 127 →
      (toString (1970 + k)).data.length = 4 ∧
      (toString (1970 + k)).data.all Char.isDigit = true := by
  decide

theorem year_format (y : Nat) (hlt : y < 2097) (hge : 1970 ≤ y) :
    (toString y).data.length = 4 ∧ (toString y).data.all Char.isDigit = true := by
  have h := year_format_offset (y - 1970) (by omega)
  rwa [show 1970 + (y - 1970) = y by omega] at h

theorem exists_len2 (l : List Char) (h : l.length = 2) :
    ∃ a b, l = [a, b] := by
  cases l with
  | nil => simp at h
  | cons a t =>
    cases t with
    | nil => simp at h
    | cons b t2 =>
      cases t2 with
      | nil => exact ⟨a, b, rfl⟩
      | cons c t3 => simp at h

theorem exists_len4 (l : List Char) (h : l.length = 4) :
    ∃ a b c d, l = [a, b, c, d] := by
  cases l with
  | nil => simp at h
  | cons a t =>
    cases t with
    | nil => simp at h
    | cons b t2 =>
      cases t2 with
      | nil => simp at h
      | cons c t3 =>
        cases t3 with
        | nil => simp at h
        | cons d t4 =>
          cases t4 with
          | nil => exact ⟨a, b, c, d, rfl⟩
          | cons e t5 => simp at h

theorem isTimestampFormat_of_data (s : String) (Y M D H Mi S : List Char)
    (hs : s.data = Y ++ ['-'] ++ M ++ ['-'] ++ D ++ [' '] ++ H ++ [':'] ++
      Mi ++ [':'] ++ S)
    (hY : Y.length = 4) (hM : M.length = 2) (hD : D.length = 2)
    (hH : H.length = 2) (hMi : Mi.length = 2) (hS : S.length = 2)
    (dY : Y.all Char.isDigit = true) (dM : M.all Char.isDigit = true)
    (dD : D.all Char.isDigit = true) (dH : H.all Char.isDigit = true)
    (dMi : Mi.all Char.isDigit = true) (dS : S.all Char.isDigit = true) :
    isTimestampFormat s = true := by
  obtain ⟨y1, y2, y3, y4, rfl⟩ := exists_len4 Y hY
  obtain ⟨o1, o2, rfl⟩ := exists_len2 M hM
  obtain ⟨d1, d2, rfl⟩ := exists_len2 D hD
  obtain ⟨h1, h2, rfl⟩ := exists_len2 H hH
  obtain ⟨n1, n2, rfl⟩ := exists_len2 Mi hMi
  obtain ⟨c1, c2, rfl⟩ := exists_len2 S hS
  simp only [List.cons_append, List.nil_append] at hs
  simp only [List.all_cons, List.all_nil, Bool.and_eq_true] at dY dM dD dH dMi dS
  rw [isTimestampFormat, hs]
  simp [dY.1, dY.2.1, dY.2.2.1, dY.2.2.2.1, dM.1, dM.2.1, dD.1, dD.2.1,
    dH.1, dH.2.1, dMi.1, dMi.2.1, dS.1, dS.2.1]

theorem tokyo_format (epoch : Nat) (h : epoch < 4000000000) :
    isTimestampFormat (tokyoTimestamp epoch) = true := by
  have hdays : (epoch + 9 * 3600) / 86400 ≤ 46296 := by
    have h1 : (epoch + 9 * 3600) / 86400 ≤ 4000032399 / 86400 :=
      Nat.div_le_div_right (by omega)
    norm_num at h1
    exact h1
  have hspec :
      (resolveYear ((epoch + 9 * 3600) / 86400)).2 <
        daysInYear (resolveYear ((epoch + 9 * 3600) / 86400)).1 ∧
      1970 ≤ (resolveYear ((epoch + 9 * 3600) / 86400)).1 ∧
      (resolveYear ((epoch + 9 * 3600) / 86400)).1 ≤
        1970 + (epoch + 9 * 3600) / 86400 / 365 :=
    resolveYearGo_spec ((epoch + 9 * 3600) / 86400) 1970
      ((epoch + 9 * 3600) / 86400) (le_refl _)
  have hydiv : (epoch + 9 * 3600) / 86400 / 365 ≤ 126 := by
    have h2 : (epoch + 9 * 3600) / 86400 / 365 ≤ 46296 / 365 :=
      Nat.div_le_div_right hdays
    norm_num at h2
    exact h2
  have hy1970 : 1970 ≤ (resolveYear ((epoch + 9 * 3600) / 86400)).1 := hspec.2.1
  have hy2097 : (resolveYear ((epoch + 9 * 3600) / 86400)).1 < 2097 := by
    have := hspec.2.2
    omega
  have hdoy : (resolveYear ((epoch + 9 * 3600) / 86400)).2 <
      daysInYear (resolveYear ((epoch + 9 * 3600) / 86400)).1 := hspec.1
  have hY := year_format _ hy2097 hy1970
  have hmd : (monthDay (isLeap (resolveYear ((epoch + 9 * 3600) / 86400)).1)
        (resolveYear ((epoch + 9 * 3600) / 86400)).2).1 < 100 ∧
      (monthDay (isLeap (resolveYear ((epoch + 9 * 3600) / 86400)).1)
        (resolveYear ((epoch + 9 * 3600) / 86400)).2).2 + 1 < 100 := by
    apply monthDay_bounds
    cases hleap : isLeap (resolveYear ((epoch + 9 * 3600) / 86400)).1 with
    | true =>
      have h366 : daysInYear (resolveYear ((epoch + 9 * 3600) / 86400)).1 = 366 := by
        simp [daysInYear, hleap]
      have hsum : (monthLengths true).sum = 366 := by decide
      rw [hsum]
      omega
    | false =>
      have h365 : daysInYear (resolveYear ((epoch + 9 * 3600) / 86400)).1 = 365 := by
        simp [daysInYear, hleap]
      have hsum : (monthLengths false).sum = 365 := by decide
      rw [hsum]
      omega
  have hsecs : (epoch + 9 * 3600) % 86400 < 86400 := Nat.mod_lt _ (by norm_num)
  have hhh : (epoch + 9 * 3600) % 86400 / 3600 < 100 := by omega
  have hmm : (epoch + 9 * 3600) % 86400 % 3600 / 60 < 100 := by
    have : (epoch + 9 * 3600) % 86400 % 3600 < 3600 := Nat.mod_lt _ (by norm_num)
    omega
  have hss : (epoch + 9 * 3600) % 86400 % 60 < 100 := by
    have : (epoch + 9 * 3600) % 86400 % 60 < 60 := Nat.mod_lt _ (by norm_num)
    omega
  have hM := pad2_format _ hmd.1
  have hD := pad2_format _ hmd.2
  have hH := pad2_format _ hhh
  have hMi := pad2_format _ hmm
  have hS := pad2_format _ hss
  apply isTimestampFormat_of_data (tokyoTimestamp epoch)
    (toString (resolveYear ((epoch + 9 * 3600) / 86400)).1).data
    (pad2 (monthDay (isLeap (resolveYear ((epoch + 9 * 3600) / 86400)).1)
      (resolveYear ((epoch + 9 * 3600) / 86400)).2).1).data
    (pad2 ((monthDay (isLeap (resolveYear ((epoch + 9 * 3600) / 86400)).1)
      (resolveYear ((epoch + 9 * 3600) / 86400)).2).2 + 1)).data
    (pad2 ((epoch + 9 * 3600) % 86400 / 3600)).data
    (pad2 ((epoch + 9 * 3600) % 86400 % 3600 / 60)).data
    (pad2 ((epoch + 9 * 3600) % 86400 % 60)).data
    ?_ hY.1 hM.1 hD.1 hH.1 hMi.1 hS.1 hY.2 hM.2 hD.2 hH.2 hMi.2 hS.2
  show (tokyoTimestamp epoch).data = _
  rw [show tokyoTimestamp epoch =
    toString (resolveYear ((epoch + 9 * 3600) / 86400)).1 ++ "-" ++
    pad2 (monthDay (isLeap (resolveYear ((epoch + 9 * 3600) / 86400)).1)
      (resolveYear ((epoch + 9 * 3600) / 86400)).2).1 ++ "-" ++
    pad2 ((monthDay (isLeap (resolveYear ((epoch + 9 * 3600) / 86400)).1)
      (resolveYear ((epoch + 9 * 3600) / 86400)).2).2 + 1) ++ " " ++
    pad2 ((epoch + 9 * 3600) % 86400 / 3600) ++ ":" ++
    pad2 ((epoch + 9 * 3600) % 86400 % 3600 / 60) ++ ":" ++
    pad2 ((epoch + 9 * 3600) % 86400 % 60) from rfl]
  simp only [String.data_append]

/-! ### Claim about the question log -/

/-- Claim C9: `add_question` with non-empty name and question appends exactly
one new row `[name, question, timestamp]` to the question log; prior rows are
untouched (the new log is the old log with one row concatenated — no search or
update is performed), and the timestamp is the call-time Asia/Tokyo local time
in the `YYYY-MM-DD HH:MM:SS` shape. -/
theorem add_question_appends (qsheet : Sheet) (name question : String)
    (epoch : Nat) (hname : name ≠ "") (hquestion : question ≠ "")
    (hepoch : epoch < 4000000000) :
    add_question qsheet name question epoch true =
      (qsheet ++ [[name, question, tokyoTimestamp epoch]], [Msg.success]) ∧
    isTimestampFormat (tokyoTimestamp epoch) = true :=
  ⟨by simp [add_question, appendRow], tokyo_format epoch hepoch⟩

/-- Claim C9 witness: at Unix second 1720000000 the appended row carries the
Tokyo-time timestamp "2024-07-03 18:46:40" (18:46 JST is 09:46 UTC + 9h). -/
theorem add_question_appends_witness :
    add_question [["a", "b", "c"]] "taro" "why" 1720000000 true =
      ([["a", "b", "c"], ["taro", "why", "2024-07-03 18:46:40"]],
        [Msg.success]) ∧
    isTimestampFormat "2024-07-03 18:46:40" = true := by
  have e : tokyoTimestamp 1720000000 = "2024-07-03 18:46:40" := by decide
  have h := add_question_appends [["a", "b", "c"]] "taro" "why" 1720000000
    (by decide) (by decide) (by norm_num)
  constructor
  · rw [← e]
    rw [h.1]
    rfl
  · rw [← e]
    exact h.2

end App
